import Mathlib

/-!
Shallow embedding of the Loan-Risk-Evaluator orchestration core.

The orchestration engine of this repository is the Amazon States Language
document src/server/stepfunctions/loanEvaluator-sf-riskEvaluation.json:
three Task states (CleanAndFeatureEngineer, CallScoringService,
PersistScoredApplication) chained by Next, each with a Retry array and a
Catch routing States.ALL to SendToDLQ, which sends an SQS message and then
reaches the Fail state ProcessingFailed.  The persistence schema is
src/server/database/schema.sql.  The Idempotency Ledger, Dispatcher and the
persist Lambda body are not present under src/; where a claim needs them
they are modelled from the spec and marked as such.
-/

namespace LoanRiskEvaluator

/-- Retry block of a Task state, with the fields of the Retry objects in
loanEvaluator-sf-riskEvaluation.json: ErrorEquals, IntervalSeconds,
MaxAttempts, BackoffRate, and whether JitterStrategy FULL is set. -/
structure RetryPolicy where
  errorEquals : List String
  intervalSeconds : Nat
  maxAttempts : Nat
  backoffRate : ℚ
  jitterStrategyFull : Bool
deriving DecidableEq, Repr

/-- Retry block of CleanAndFeatureEngineer (lines 10-28 of the JSON). -/
def cleanRetry : RetryPolicy :=
  { errorEquals := ["Lambda.ServiceException", "Lambda.AWSLambdaException",
      "Lambda.SdkClientException", "Lambda.TooManyRequestsException",
      "DataValidationError"]
    intervalSeconds := 3
    maxAttempts := 2
    backoffRate := 3 / 2
    jitterStrategyFull := false }

/-- Retry block of CallScoringService (lines 42-56 of the JSON). -/
def scoreRetry : RetryPolicy :=
  { errorEquals := ["Lambda.ServiceException", "Lambda.AWSLambdaException",
      "Lambda.SdkClientException", "Lambda.TooManyRequestsException",
      "ScoringServiceCallFailed"]
    intervalSeconds := 5
    maxAttempts := 3
    backoffRate := 2
    jitterStrategyFull := true }

/-- Retry block of PersistScoredApplication (lines 74-89 of the JSON). -/
def persistRetry : RetryPolicy :=
  { errorEquals := ["Lambda.ServiceException", "Lambda.AWSLambdaException",
      "Lambda.SdkClientException", "Lambda.TooManyRequestsException",
      "DatabaseConnectionError", "DatabaseWriteError"]
    intervalSeconds := 5
    maxAttempts := 3
    backoffRate := 2
    jitterStrategyFull := true }

/-- TimeoutSeconds of CleanAndFeatureEngineer. -/
def cleanTimeoutSeconds : Nat := 120

/-- TimeoutSeconds of CallScoringService. -/
def scoreTimeoutSeconds : Nat := 60

/-- TimeoutSeconds of PersistScoredApplication. -/
def persistTimeoutSeconds : Nat := 90

/-- Attempt loop of one Task state under the ASL Retry semantics.  The task
is invoked once; on an error whose name is in errorEquals it is retried
while retries remain (AWS MaxAttempts bounds the number of retries made
after the initial attempt).  outcomes n is the result of invocation number
n, counted from idx: none is success, some e an error named e.  Returns
the total number of invocations made and the final result (none on
success, some e when the state throws e to its Catch). -/
def runTaskAttempts (errorEquals : List String) (retriesLeft : Nat)
    (outcomes : Nat → Option String) (idx : Nat) : Nat × Option String :=
  match outcomes idx, retriesLeft with
  | none, _ => (idx + 1, none)
  | some e, 0 => (idx + 1, some e)
  | some e, r + 1 =>
      if e ∈ errorEquals then runTaskAttempts errorEquals r outcomes (idx + 1)
      else (idx + 1, some e)

/-- Run one Task state through its Retry block, starting at invocation 0. -/
def execTask (p : RetryPolicy) (outcomes : Nat → Option String) :
    Nat × Option String :=
  runTaskAttempts p.errorEquals p.maxAttempts outcomes 0

/-- Number of times the stage function behind a Task state is invoked. -/
def invocationCount (p : RetryPolicy) (outcomes : Nat → Option String) : Nat :=
  (execTask p outcomes).1

/-- Final result of a Task state after its Retry block is exhausted. -/
def taskResult (p : RetryPolicy) (outcomes : Nat → Option String) :
    Option String :=
  (execTask p outcomes).2

/-- The five states of the state machine, in the States map of the JSON. -/
inductive SfnState where
  | cleanAndFeatureEngineer
  | callScoringService
  | persistScoredApplication
  | sendToDLQ
  | processingFailed
deriving DecidableEq, Repr

/-- Next field on success: CleanAndFeatureEngineer to CallScoringService to
PersistScoredApplication, which has End true; SendToDLQ continues to
ProcessingFailed; the Fail state has no successor. -/
def nextOnSuccess : SfnState → Option SfnState
  | .cleanAndFeatureEngineer => some .callScoringService
  | .callScoringService => some .persistScoredApplication
  | .persistScoredApplication => none
  | .sendToDLQ => some .processingFailed
  | .processingFailed => none

/-- Catch target for States.ALL: each Task state routes to SendToDLQ, and
SendToDLQ itself catches States.ALL to ProcessingFailed. -/
def catchNext : SfnState → Option SfnState
  | .cleanAndFeatureEngineer => some .sendToDLQ
  | .callScoringService => some .sendToDLQ
  | .persistScoredApplication => some .sendToDLQ
  | .sendToDLQ => some .processingFailed
  | .processingFailed => none

/-- Retry block attached to each state: the three pipeline Task states carry
one retrier each; SendToDLQ and ProcessingFailed have none. -/
def taskRetryPolicy : SfnState → Option RetryPolicy
  | .cleanAndFeatureEngineer => some cleanRetry
  | .callScoringService => some scoreRetry
  | .persistScoredApplication => some persistRetry
  | .sendToDLQ => none
  | .processingFailed => none

/-- Outcome oracles for one execution: the result of each invocation of the
three stage Lambdas, and whether the sqs:sendMessage call of SendToDLQ
fails. -/
structure StageOracles where
  cleanOutcomes : Nat → Option String
  scoreOutcomes : Nat → Option String
  persistOutcomes : Nat → Option String
  dlqSendFails : Bool

/-- Result of entering a state once (its Retry block already applied). -/
def stateResult (o : StageOracles) : SfnState → Option String
  | .cleanAndFeatureEngineer => taskResult cleanRetry o.cleanOutcomes
  | .callScoringService => taskResult scoreRetry o.scoreOutcomes
  | .persistScoredApplication => taskResult persistRetry o.persistOutcomes
  | .sendToDLQ => if o.dlqSendFails then some "SQS.SdkClientException" else none
  | .processingFailed => none

/-- Transition taken after a state completes: Next on success, the Catch
target on error. -/
def stepTarget (s : SfnState) (res : Option String) : Option SfnState :=
  match res with
  | none => nextOnSuccess s
  | some _ => catchNext s

/-- Walk of the state machine from a state, recording every state entered;
fuel bounds the walk (the graph is acyclic and 5 states long at most).
A Fail state terminates the execution; a state with no successor ends it. -/
def runFrom (o : StageOracles) : Nat → SfnState → List SfnState
  | 0, s => [s]
  | fuel + 1, s =>
      match s with
      | .processingFailed => [s]
      | _ =>
          match stepTarget s (stateResult o s) with
          | none => [s]
          | some s2 => s :: runFrom o fuel s2

/-- The trace of states entered by one execution, starting at the StartAt
state CleanAndFeatureEngineer. -/
def runTrace (o : StageOracles) : List SfnState :=
  runFrom o 5 .cleanAndFeatureEngineer

/-- The three pipeline stages, in the vocabulary of the spec. -/
inductive Stage where
  | CLEAN
  | SCORE
  | PERSIST
deriving DecidableEq, Repr

/-- The pipeline stage a state machine state realizes, if any. -/
def stageOf : SfnState → Option Stage
  | .cleanAndFeatureEngineer => some .CLEAN
  | .callScoringService => some .SCORE
  | .persistScoredApplication => some .PERSIST
  | _ => none

/-- The sequence of pipeline stages attempted by one execution. -/
def stagesExecuted (o : StageOracles) : List Stage :=
  (runTrace o).filterMap stageOf

/-- The terminal state of one execution. -/
def finalState (o : StageOracles) : Option SfnState :=
  (runTrace o).getLast?

/-- Number of times the execution enters SendToDLQ, i.e. how many times the
dead-letter write is attempted. -/
def dlqAttempts (o : StageOracles) : Nat :=
  (runTrace o).count .sendToDLQ

/-- Result of the CLEAN stage in one execution. -/
def cleanResult (o : StageOracles) : Option String :=
  taskResult cleanRetry o.cleanOutcomes

/-- Result of the SCORE stage in one execution. -/
def scoreResult (o : StageOracles) : Option String :=
  taskResult scoreRetry o.scoreOutcomes

/-- Result of the PERSIST stage in one execution. -/
def persistResult (o : StageOracles) : Option String :=
  taskResult persistRetry o.persistOutcomes

/-- Whether some pipeline stage of the execution ends in an error thrown to
its Catch. -/
def anyStageFailed (o : StageOracles) : Prop :=
  cleanResult o ≠ none ∨ scoreResult o ≠ none ∨ persistResult o ≠ none

/-- Number of rows the execution writes to scored_loan_applications: one
exactly when every stage, PERSIST included, completes. -/
def persistedRecords (o : StageOracles) : Nat :=
  if cleanResult o = none ∧ scoreResult o = none ∧ persistResult o = none
  then 1 else 0

/-- Number of dead-letter records durably written: SendToDLQ entered and its
sqs:sendMessage call succeeded. -/
def dlqRecords (o : StageOracles) : Nat :=
  if o.dlqSendFails then 0 else dlqAttempts o

/-- Stage policy vocabulary of the spec: timeout, attempt bound, base delay,
backoff multiplier and jitter flag of one stage. -/
structure SpecStagePolicy where
  timeoutSeconds : Nat
  maxAttempts : Nat
  baseDelaySeconds : Nat
  backoffMultiplier : ℚ
  fullJitter : Bool
deriving DecidableEq, Repr

/-- Stated default for CLEAN: timeout 120s, at most 2 attempts, base delay
3s, backoff 1.5, no jitter. -/
def specCleanPolicy : SpecStagePolicy :=
  { timeoutSeconds := 120, maxAttempts := 2, baseDelaySeconds := 3
    backoffMultiplier := 3 / 2, fullJitter := false }

/-- Stated default for SCORE: timeout 60s, at most 3 attempts, base delay
5s, backoff 2, full jitter. -/
def specScorePolicy : SpecStagePolicy :=
  { timeoutSeconds := 60, maxAttempts := 3, baseDelaySeconds := 5
    backoffMultiplier := 2, fullJitter := true }

/-- Stated default for PERSIST: timeout 90s, at most 3 attempts, base delay
5s, backoff 2, full jitter. -/
def specPersistPolicy : SpecStagePolicy :=
  { timeoutSeconds := 90, maxAttempts := 3, baseDelaySeconds := 5
    backoffMultiplier := 2, fullJitter := true }

/-- Policy a Task state of the JSON actually configures, in the vocabulary
of the spec: its TimeoutSeconds together with its Retry block fields. -/
def configuredPolicy (timeoutSeconds : Nat) (p : RetryPolicy) :
    SpecStagePolicy :=
  { timeoutSeconds := timeoutSeconds, maxAttempts := p.maxAttempts
    baseDelaySeconds := p.intervalSeconds, backoffMultiplier := p.backoffRate
    fullJitter := p.jitterStrategyFull }

/-- Exponential delay computed before retry number k (k counted from 1):
IntervalSeconds times BackoffRate to the power k - 1, in seconds. -/
def computedDelaySeconds (p : RetryPolicy) (k : Nat) : ℚ :=
  p.intervalSeconds * p.backoffRate ^ (k - 1)

/-- Delay actually slept under JitterStrategy FULL: a uniform random draw
from the interval from 0 to the computed delay, written as the random
sample u from the unit interval times the computed delay. -/
def fullJitterDelaySeconds (p : RetryPolicy) (k : Nat) (u : ℚ) : ℚ :=
  u * computedDelaySeconds p k

/-- MessageBody of the SendToDLQ state (lines 104-110 of the JSON), as its
key-value pairs in source order: failedStage is the string literal
CleanAndFeatureEngineer; the errorInfo and input keys substitute the caught
errorInfo object and the execution input. -/
def sendToDLQMessageBody (errorInfo executionInput : String) :
    List (String × String) :=
  [("failedStage", "CleanAndFeatureEngineer"),
   ("errorInfo", errorInfo),
   ("input", executionInput)]

/-- Execution in which CLEAN succeeds at once and every invocation of the
scoring Lambda throws ScoringServiceCallFailed. -/
def scoreAlwaysFailsOracle : StageOracles :=
  { cleanOutcomes := fun _ => none
    scoreOutcomes := fun _ => some "ScoringServiceCallFailed"
    persistOutcomes := fun _ => none
    dlqSendFails := false }

/-- Execution in which every invocation of the cleaning Lambda throws an
error outside the Retry list of the stage, and the dead-letter send itself
fails. -/
def cleanFatalOracle : StageOracles :=
  { cleanOutcomes := fun _ => some "UnmappedCleaningBug"
    scoreOutcomes := fun _ => none
    persistOutcomes := fun _ => none
    dlqSendFails := true }

/-- Execution in which all three stages succeed on their first attempt. -/
def allSucceedOracle : StageOracles :=
  { cleanOutcomes := fun _ => none
    scoreOutcomes := fun _ => none
    persistOutcomes := fun _ => none
    dlqSendFails := false }

/-- ResultPath dollar.risk_score of CallScoringService: the task result is
placed at the risk_score field of the state object and every other field
passes through unchanged.  State objects are maps from field name to
value. -/
def applyRiskScoreResultPath {V : Type} (state : String → Option V)
    (result : V) : String → Option V :=
  fun k => if k = "risk_score" then some result else state k

/-- InputPath dollar.features_for_scoring of CallScoringService: the task
receives only the features_for_scoring field of the state. -/
def scoringServiceInput {V : Type} (state : String → Option V) : Option V :=
  state "features_for_scoring"

/-- State transform realized by the CallScoringService state: score the
selected input and write the result at risk_score. -/
def callScoringServiceState {V : Type} (score : Option V → V)
    (state : String → Option V) : String → Option V :=
  applyRiskScoreResultPath state (score (scoringServiceInput state))

/-- PersistScoredApplication declares no InputPath, so its Lambda receives
the whole state object. -/
def persistStageInput {V : Type} (state : String → Option V) :
    String → Option V :=
  state

/-- Row of scored_loan_applications, keyed by application_id, its PRIMARY
KEY in schema.sql; the feature and score columns are abstracted into two
type parameters. -/
structure ScoredRow (F S : Type) where
  application_id : String
  features : F
  risk_score : S

/-- Primary-key invariant of schema.sql: no two rows of the table share an
application_id. -/
def pkUnique {F S : Type} (db : List (ScoredRow F S)) : Prop :=
  (db.map ScoredRow.application_id).Nodup

/-- Modelled from the spec: the persist Lambda body is absent from src
(only schema.sql is present); the spec states that persistence is keyed by
ApplicationId and is an upsert, not an insert-only operation.  The table is
the list of rows; an existing row for the id is replaced, otherwise a row
is appended. -/
def persist {F S : Type} : List (ScoredRow F S) → String → F → S →
    List (ScoredRow F S)
  | [], id, f, s => [⟨id, f, s⟩]
  | r :: rest, id, f, s =>
      if r.application_id == id then ⟨id, f, s⟩ :: rest
      else r :: persist rest id f s

/-- Number of rows of the table carrying a given application_id. -/
def rowsForId {F S : Type} (db : List (ScoredRow F S)) (id : String) : Nat :=
  (db.filter (fun r => r.application_id == id)).length

/-- Modelled from the spec: the Idempotency Ledger entry for one natural
key, state IN_PROGRESS or COMPLETED with the minted ApplicationId; the
entry is absent when the key was never seen or its TTL expired.  The Ledger
has no source under src. -/
inductive LedgerEntry where
  | inProgress (appId : Nat)
  | completed (appId : Nat)
deriving DecidableEq, Repr

/-- Result of beginOrReject on the Ledger. -/
inductive BeginResult where
  | admitted (appId : Nat)
  | alreadyInProgress
  | alreadyCompleted
deriving DecidableEq, Repr

/-- Modelled from the spec: Dispatcher-visible state for one natural key:
its ledger entry, the next fresh ApplicationId, and the ApplicationIds
minted and the WorkflowExecutions started so far for this key. -/
structure DispatchState where
  entry : Option LedgerEntry
  nextAppId : Nat
  mintedIds : List Nat
  startedWorkflows : List Nat
deriving DecidableEq, Repr

/-- Modelled from the spec: beginOrReject admits the message and mints a
fresh ApplicationId when no ledger entry exists for the key, and otherwise
reports AlreadyInProgress or AlreadyCompleted without minting. -/
def beginOrReject (st : DispatchState) : BeginResult × DispatchState :=
  match st.entry with
  | none =>
      (BeginResult.admitted st.nextAppId,
        { st with entry := some (LedgerEntry.inProgress st.nextAppId)
                  nextAppId := st.nextAppId + 1
                  mintedIds := st.mintedIds ++ [st.nextAppId] })
  | some (LedgerEntry.inProgress _) => (BeginResult.alreadyInProgress, st)
  | some (LedgerEntry.completed _) => (BeginResult.alreadyCompleted, st)

/-- Modelled from the spec: on one delivery the Dispatcher calls
beginOrReject and starts a WorkflowExecution only on Admitted; duplicates
are acknowledged without starting anything. -/
def dispatchDelivery (st : DispatchState) : DispatchState :=
  match beginOrReject st with
  | (BeginResult.admitted id, st2) =>
      { st2 with startedWorkflows := st2.startedWorkflows ++ [id] }
  | (_, st2) => st2

/-- Events touching the key within the Ledger TTL window: a redelivery of
the message, or the workflow reaching SUCCEEDED, upon which markCompleted
flips the entry to COMPLETED.  TTL expiry does not occur inside the
window. -/
inductive DispatchEvent where
  | deliver
  | workflowSucceeded
deriving DecidableEq, Repr

/-- One event step of the Dispatcher and Ledger for the key. -/
def dispatchStep (st : DispatchState) : DispatchEvent → DispatchState
  | DispatchEvent.deliver => dispatchDelivery st
  | DispatchEvent.workflowSucceeded =>
      match st.entry with
      | some (LedgerEntry.inProgress id) =>
          { st with entry := some (LedgerEntry.completed id) }
      | _ => st

/-- Ledger state with no entry and nothing minted or started. -/
def initialDispatch : DispatchState :=
  { entry := none, nextAppId := 0, mintedIds := [], startedWorkflows := [] }

/-- Run of the Dispatcher over the events of one TTL window. -/
def dispatchRun (events : List DispatchEvent) : DispatchState :=
  events.foldl dispatchStep initialDispatch

/-- Invariant of the per-key Dispatcher state: before the first delivery
nothing is minted or started; from the first delivery on, the entry exists
and exactly one ApplicationId was minted and one workflow started. -/
def dispatchInv (st : DispatchState) : Prop :=
  (st.entry = none ∧ st.mintedIds = [] ∧ st.startedWorkflows = []) ∨
  (st.entry ≠ none ∧ st.mintedIds.length = 1 ∧
    st.startedWorkflows.length = 1)

/-- Sample state object flowing out of the CLEAN stage: a raw payload
reference and engineered features. -/
def sampleState : String → Option Nat :=
  fun k =>
    if k = "features_for_scoring" then some 2
    else if k = "raw_payload_ref" then some 9
    else none

/-- Sample scoring function. -/
def sampleScore : Option Nat → Nat :=
  fun v => v.getD 0 + 1

/-- Case analysis of the whole trace on the three stage results. -/
theorem runTrace_eq (o : StageOracles) :
    runTrace o =
      match cleanResult o with
      | some _ => [.cleanAndFeatureEngineer, .sendToDLQ, .processingFailed]
      | none =>
          match scoreResult o with
          | some _ => [.cleanAndFeatureEngineer, .callScoringService,
              .sendToDLQ, .processingFailed]
          | none =>
              match persistResult o with
              | some _ => [.cleanAndFeatureEngineer, .callScoringService,
                  .persistScoredApplication, .sendToDLQ, .processingFailed]
              | none => [.cleanAndFeatureEngineer, .callScoringService,
                  .persistScoredApplication] := by
  cases hc : cleanResult o with
  | some e =>
      simp only [cleanResult] at hc
      cases hd : o.dlqSendFails <;>
        simp [runTrace, runFrom, stepTarget, stateResult, cleanResult, hc,
          hd, nextOnSuccess, catchNext]
  | none =>
      cases hs : scoreResult o with
      | some e =>
          simp only [cleanResult] at hc
          simp only [scoreResult] at hs
          cases hd : o.dlqSendFails <;>
            simp [runTrace, runFrom, stepTarget, stateResult, cleanResult,
              scoreResult, hc, hs, hd, nextOnSuccess, catchNext]
      | none =>
          cases hp : persistResult o with
          | some e =>
              simp only [cleanResult] at hc
              simp only [scoreResult] at hs
              simp only [persistResult] at hp
              cases hd : o.dlqSendFails <;>
                simp [runTrace, runFrom, stepTarget, stateResult,
                  cleanResult, scoreResult, persistResult, hc, hs, hp, hd,
                  nextOnSuccess, catchNext]
          | none =>
              simp only [cleanResult] at hc
              simp only [scoreResult] at hs
              simp only [persistResult] at hp
              simp [runTrace, runFrom, stepTarget, stateResult, cleanResult,
                scoreResult, persistResult, hc, hs, hp, nextOnSuccess,
                catchNext]

/-- A stage function that fails every invocation with a retryable error is
invoked once plus once per remaining retry. -/
theorem runTaskAttempts_const_retryable {L : List String} {e : String}
    {outcomes : Nat → Option String} (he : e ∈ L)
    (hout : ∀ i, outcomes i = some e) :
    ∀ (r idx : Nat), runTaskAttempts L r outcomes idx = (idx + r + 1, some e) := by
  intro r
  induction r with
  | zero =>
      intro idx
      simp [runTaskAttempts, hout idx]
  | succ r ih =>
      intro idx
      have hstep : runTaskAttempts L (r + 1) outcomes idx =
          runTaskAttempts L r outcomes (idx + 1) := by
        simp [runTaskAttempts, hout idx, he]
      rw [hstep, ih (idx + 1)]
      have harith : idx + 1 + r + 1 = idx + (r + 1) + 1 := by omega
      rw [harith]

/-- A first invocation that throws an error outside the ErrorEquals list
ends the attempt loop at once, whatever the retry budget. -/
theorem runTaskAttempts_unclassified {L : List String} {e : String}
    {outcomes : Nat → Option String} (he : e ∉ L) {idx : Nat}
    (h0 : outcomes idx = some e) (r : Nat) :
    runTaskAttempts L r outcomes idx = (idx + 1, some e) := by
  cases r with
  | zero => simp [runTaskAttempts, h0]
  | succ r => simp [runTaskAttempts, h0, he]

/-- C4, corrected: under the ASL Retry semantics, MaxAttempts 3 bounds the
retries made after the initial attempt, so a scoring function that always
throws the retryable error ScoringServiceCallFailed is invoked exactly
MaxAttempts + 1 = 4 times, after which the workflow reaches the terminal
Fail state ProcessingFailed. -/
theorem score_stage_exhausts_four_invocations (o : StageOracles)
    (hout : ∀ i, o.scoreOutcomes i = some "ScoringServiceCallFailed")
    (hc : cleanResult o = none) :
    invocationCount scoreRetry o.scoreOutcomes = scoreRetry.maxAttempts + 1 ∧
    invocationCount scoreRetry o.scoreOutcomes = 4 ∧
    finalState o = some SfnState.processingFailed := by
  have he : "ScoringServiceCallFailed" ∈ scoreRetry.errorEquals := by decide
  have hrun := runTaskAttempts_const_retryable he hout scoreRetry.maxAttempts 0
  have hcount : invocationCount scoreRetry o.scoreOutcomes = 4 := by
    unfold invocationCount execTask
    rw [hrun]
    decide
  have hs : scoreResult o = some "ScoringServiceCallFailed" := by
    unfold scoreResult taskResult execTask
    rw [hrun]
  refine ⟨?_, hcount, ?_⟩
  · rw [hcount]
    decide
  · rw [finalState, runTrace_eq o, hc, hs]
    rfl

/-- C4, witness at the execution whose scoring Lambda always throws the
retryable error. -/
theorem score_stage_exhausts_four_invocations_witness :
    (∀ i, scoreAlwaysFailsOracle.scoreOutcomes i =
      some "ScoringServiceCallFailed") ∧
    cleanResult scoreAlwaysFailsOracle = none ∧
    (invocationCount scoreRetry scoreAlwaysFailsOracle.scoreOutcomes =
        scoreRetry.maxAttempts + 1 ∧
      invocationCount scoreRetry scoreAlwaysFailsOracle.scoreOutcomes = 4 ∧
      finalState scoreAlwaysFailsOracle = some SfnState.processingFailed) :=
  ⟨fun _ => rfl, by decide,
    score_stage_exhausts_four_invocations scoreAlwaysFailsOracle
      (fun _ => rfl) (by decide)⟩

/-- C4, counterexample to the claim as stated: with the configured
MaxAttempts 3 the always-retryably-failing scoring function is invoked 4
times, not 3. -/
theorem score_stage_three_invocations_false :
    scoreRetry.maxAttempts = 3 ∧
    "ScoringServiceCallFailed" ∈ scoreRetry.errorEquals ∧
    invocationCount scoreRetry (fun _ => some "ScoringServiceCallFailed") = 4 ∧
    invocationCount scoreRetry (fun _ => some "ScoringServiceCallFailed") ≠ 3 := by
  decide

/-- C6: the three Task states configure exactly the stated defaults: CLEAN
timeout 120s, 2 attempts, delay 3s, backoff 1.5, no jitter, with
DataValidationError retryable; SCORE timeout 60s, 3 attempts, delay 5s,
backoff 2, full jitter; PERSIST timeout 90s, 3 attempts, delay 5s, backoff
2, full jitter. -/
theorem configured_policies_match_spec :
    configuredPolicy cleanTimeoutSeconds cleanRetry = specCleanPolicy ∧
    "DataValidationError" ∈ cleanRetry.errorEquals ∧
    configuredPolicy scoreTimeoutSeconds scoreRetry = specScorePolicy ∧
    configuredPolicy persistTimeoutSeconds persistRetry = specPersistPolicy := by
  refine ⟨?_, by decide, ?_, ?_⟩ <;> rfl

/-- C7: under base delay 5s, backoff 2 and full jitter, the delay slept
before retry k, for any random draw u from the unit interval, lies in the
closed interval from 0 to 5 times 2 to the power k - 1 seconds. -/
theorem score_backoff_full_jitter_bounds (k : Nat) (_hk : 1 ≤ k) (u : ℚ)
    (h0 : 0 ≤ u) (h1 : u ≤ 1) :
    0 ≤ fullJitterDelaySeconds scoreRetry k u ∧
    fullJitterDelaySeconds scoreRetry k u ≤ 5 * 2 ^ (k - 1) := by
  have hc : computedDelaySeconds scoreRetry k = 5 * 2 ^ (k - 1) := by
    simp [computedDelaySeconds, scoreRetry]
  have hpos : (0 : ℚ) ≤ 5 * 2 ^ (k - 1) := by positivity
  constructor
  · exact mul_nonneg h0 (by rw [hc] at *; exact hpos)
  · rw [fullJitterDelaySeconds, hc]
    calc u * (5 * 2 ^ (k - 1)) ≤ 1 * (5 * 2 ^ (k - 1)) :=
          mul_le_mul_of_nonneg_right h1 hpos
      _ = 5 * 2 ^ (k - 1) := one_mul _

/-- C7, witness at retry number 2 with random draw one half. -/
theorem score_backoff_full_jitter_bounds_witness :
    1 ≤ 2 ∧ (0 : ℚ) ≤ 1 / 2 ∧ (1 / 2 : ℚ) ≤ 1 ∧
    (0 ≤ fullJitterDelaySeconds scoreRetry 2 (1 / 2) ∧
      fullJitterDelaySeconds scoreRetry 2 (1 / 2) ≤ 5 * 2 ^ (2 - 1)) :=
  ⟨by norm_num, by norm_num, by norm_num,
    score_backoff_full_jitter_bounds 2 (by norm_num) (1 / 2) (by norm_num)
      (by norm_num)⟩

/-- C8: an error thrown by a stage Lambda that is not in the ErrorEquals
list of its Retry block triggers no retry at all: the attempt loop ends
after the single invocation with that error, which the Catch for
States.ALL of every Task state routes to SendToDLQ. -/
theorem unclassified_error_is_fatal (s : SfnState) (p : RetryPolicy)
    (hp : taskRetryPolicy s = some p) (e : String) (he : e ∉ p.errorEquals)
    (outcomes : Nat → Option String) (h0 : outcomes 0 = some e) :
    execTask p outcomes = (1, some e) ∧
    catchNext s = some SfnState.sendToDLQ := by
  constructor
  · unfold execTask
    exact runTaskAttempts_unclassified he h0 p.maxAttempts
  · cases s <;> simp_all [taskRetryPolicy, catchNext]

/-- C8, witness at the scoring stage and an error outside its list. -/
theorem unclassified_error_is_fatal_witness :
    taskRetryPolicy SfnState.callScoringService = some scoreRetry ∧
    "UnmappedModelError" ∉ scoreRetry.errorEquals ∧
    (fun _ : Nat => some "UnmappedModelError") 0 = some "UnmappedModelError" ∧
    (execTask scoreRetry (fun _ => some "UnmappedModelError") =
        (1, some "UnmappedModelError") ∧
      catchNext SfnState.callScoringService = some SfnState.sendToDLQ) :=
  ⟨rfl, by decide, rfl,
    unclassified_error_is_fatal SfnState.callScoringService scoreRetry rfl
      "UnmappedModelError" (by decide) (fun _ => some "UnmappedModelError")
      rfl⟩

/-- C3: the sequence of stages attempted by any execution is a prefix of
CLEAN, SCORE, PERSIST; SCORE is entered only after CLEAN completes and
PERSIST only after both CLEAN and SCORE complete; and the execution ends
either in the terminal Fail state or, having run all three stages with
PERSIST completing, at the End of PersistScoredApplication. -/
theorem stage_order_follows_pipeline (o : StageOracles) :
    (∃ t, stagesExecuted o ++ t = [Stage.CLEAN, Stage.SCORE, Stage.PERSIST]) ∧
    (Stage.SCORE ∈ stagesExecuted o → cleanResult o = none) ∧
    (Stage.PERSIST ∈ stagesExecuted o →
      cleanResult o = none ∧ scoreResult o = none) ∧
    (finalState o = some SfnState.processingFailed ∨
      (stagesExecuted o = [Stage.CLEAN, Stage.SCORE, Stage.PERSIST] ∧
        persistResult o = none ∧
        finalState o = some SfnState.persistScoredApplication)) := by
  have htr := runTrace_eq o
  cases hc : cleanResult o with
  | some e =>
      rw [hc] at htr
      simp only [stagesExecuted, finalState, htr]
      refine ⟨⟨[Stage.SCORE, Stage.PERSIST], by decide⟩, ?_, ?_, ?_⟩
      · intro hmem
        exact absurd hmem (by decide)
      · intro hmem
        exact absurd hmem (by decide)
      · left
        decide
  | none =>
      cases hs : scoreResult o with
      | some e =>
          rw [hc, hs] at htr
          simp only [stagesExecuted, finalState, htr]
          refine ⟨⟨[Stage.PERSIST], by decide⟩, fun _ => by trivial, ?_, ?_⟩
          · intro hmem
            exact absurd hmem (by decide)
          · left
            decide
      | none =>
          cases hp : persistResult o with
          | some e =>
              rw [hc, hs, hp] at htr
              simp only [stagesExecuted, finalState, htr]
              refine ⟨⟨[], by decide⟩, fun _ => by trivial,
                fun _ => ⟨by trivial, by trivial⟩, ?_⟩
              left
              decide
          | none =>
              rw [hc, hs, hp] at htr
              simp only [stagesExecuted, finalState, htr]
              exact ⟨⟨[], by decide⟩, fun _ => by trivial,
                fun _ => ⟨by trivial, by trivial⟩,
                Or.inr ⟨by decide, by trivial, by decide⟩⟩

/-- C3, witness at the execution in which all three stages succeed. -/
theorem stage_order_follows_pipeline_witness :
    Stage.SCORE ∈ stagesExecuted allSucceedOracle ∧
    Stage.PERSIST ∈ stagesExecuted allSucceedOracle ∧
    cleanResult allSucceedOracle = none ∧
    (cleanResult allSucceedOracle = none ∧
      scoreResult allSucceedOracle = none) :=
  ⟨by decide, by decide,
    (stage_order_follows_pipeline allSucceedOracle).2.1 (by decide),
    (stage_order_follows_pipeline allSucceedOracle).2.2.1 (by decide)⟩

/-- C5: whenever some stage of the execution fails terminally, SendToDLQ is
entered exactly once, and whether or not its sqs:sendMessage succeeds the
execution still ends in the terminal Fail state ProcessingFailed. -/
theorem dead_letter_attempted_once (o : StageOracles)
    (h : anyStageFailed o) :
    dlqAttempts o = 1 ∧ finalState o = some SfnState.processingFailed := by
  have htr := runTrace_eq o
  cases hc : cleanResult o with
  | some e =>
      rw [hc] at htr
      simp only [dlqAttempts, finalState, htr]
      exact ⟨by decide, by decide⟩
  | none =>
      cases hs : scoreResult o with
      | some e =>
          rw [hc, hs] at htr
          simp only [dlqAttempts, finalState, htr]
          exact ⟨by decide, by decide⟩
      | none =>
          cases hp : persistResult o with
          | some e =>
              rw [hc, hs, hp] at htr
              simp only [dlqAttempts, finalState, htr]
              exact ⟨by decide, by decide⟩
          | none =>
              rcases h with h | h | h <;> exact absurd (by assumption) h

/-- C5, witness at the execution whose CLEAN stage throws a fatal error and
whose dead-letter send itself fails. -/
theorem dead_letter_attempted_once_witness :
    anyStageFailed cleanFatalOracle ∧
    (dlqAttempts cleanFatalOracle = 1 ∧
      finalState cleanFatalOracle = some SfnState.processingFailed) :=
  ⟨Or.inl (by decide),
    dead_letter_attempted_once cleanFatalOracle (Or.inl (by decide))⟩

/-- C1, the code at a failing input: in the execution whose SCORE stage
fails terminally, the trace shows CallScoringService as the stage that
failed, yet the dead-letter MessageBody carries the hardcoded string
CleanAndFeatureEngineer in failedStage, and its keys are exactly
failedStage, errorInfo and input: no applicationId and no timestamp
field. -/
theorem dlq_record_misses_failure_context :
    runTrace scoreAlwaysFailsOracle =
      [SfnState.cleanAndFeatureEngineer, SfnState.callScoringService,
        SfnState.sendToDLQ, SfnState.processingFailed] ∧
    (∀ errorInfo executionInput : String,
      (sendToDLQMessageBody errorInfo executionInput).lookup "failedStage" =
        some "CleanAndFeatureEngineer") ∧
    "CleanAndFeatureEngineer" ≠ "CallScoringService" ∧
    (sendToDLQMessageBody "cause" "original").map Prod.fst =
      ["failedStage", "errorInfo", "input"] ∧
    "applicationId" ∉ (sendToDLQMessageBody "cause" "original").map Prod.fst ∧
    "timestamp" ∉ (sendToDLQMessageBody "cause" "original").map Prod.fst :=
  ⟨by decide, fun _ _ => rfl, by decide, rfl, by decide, by decide⟩

/-- C10: CallScoringService reads only the features_for_scoring field of
the state and writes only the risk_score field; every other field reaches
the PERSIST stage unchanged, and the written score depends on the state
only through features_for_scoring. -/
theorem score_stage_frame (V : Type) (score : Option V → V)
    (state : String → Option V) :
    (∀ k, k ≠ "risk_score" → callScoringServiceState score state k = state k) ∧
    callScoringServiceState score state "risk_score" =
      some (score (state "features_for_scoring")) ∧
    (∀ k, k ≠ "risk_score" →
      persistStageInput (callScoringServiceState score state) k = state k) ∧
    (∀ state2 : String → Option V,
      state2 "features_for_scoring" = state "features_for_scoring" →
      callScoringServiceState score state2 "risk_score" =
        callScoringServiceState score state "risk_score") := by
  refine ⟨?_, ?_, ?_, ?_⟩
  · intro k hk
    simp [callScoringServiceState, applyRiskScoreResultPath, hk]
  · simp [callScoringServiceState, applyRiskScoreResultPath,
      scoringServiceInput]
  · intro k hk
    simp [persistStageInput, callScoringServiceState,
      applyRiskScoreResultPath, hk]
  · intro state2 h2
    simp [callScoringServiceState, applyRiskScoreResultPath,
      scoringServiceInput, h2]

/-- C10, witness at a sample state carrying a raw payload reference next to
the engineered features. -/
theorem score_stage_frame_witness :
    ("raw_payload_ref" : String) ≠ "risk_score" ∧
    callScoringServiceState sampleScore sampleState "raw_payload_ref" =
      sampleState "raw_payload_ref" ∧
    persistStageInput (callScoringServiceState sampleScore sampleState)
      "raw_payload_ref" = sampleState "raw_payload_ref" ∧
    sampleState "features_for_scoring" = sampleState "features_for_scoring" ∧
    callScoringServiceState sampleScore sampleState "risk_score" =
      callScoringServiceState sampleScore sampleState "risk_score" :=
  ⟨by decide,
    (score_stage_frame Nat sampleScore sampleState).1 "raw_payload_ref"
      (by decide),
    (score_stage_frame Nat sampleScore sampleState).2.2.1 "raw_payload_ref"
      (by decide),
    rfl,
    (score_stage_frame Nat sampleScore sampleState).2.2.2 sampleState rfl⟩

/-- Replaying persist with the same arguments leaves the table unchanged. -/
theorem persist_twice_eq {F S : Type} (db : List (ScoredRow F S))
    (id : String) (f : F) (s : S) :
    persist (persist db id f s) id f s = persist db id f s := by
  induction db with
  | nil => simp [persist]
  | cons r rest ih =>
      cases h : r.application_id == id with
      | true => simp [persist, h]
      | false => simp [persist, h, ih]

/-- Under the primary-key invariant, one persist leaves exactly one row for
the ApplicationId it wrote. -/
theorem rowsForId_persist {F S : Type} (db : List (ScoredRow F S))
    (id : String) (f : F) (s : S) (hpk : pkUnique db) :
    rowsForId (persist db id f s) id = 1 := by
  induction db with
  | nil => simp [persist, rowsForId]
  | cons r rest ih =>
      rw [pkUnique, List.map_cons, List.nodup_cons] at hpk
      obtain ⟨hr, hrest⟩ := hpk
      cases h : r.application_id == id with
      | true =>
          have hid : r.application_id = id := by
            exact eq_of_beq h
          have hnone : rest.filter (fun x => x.application_id == id) = [] := by
            rw [List.filter_eq_nil_iff]
            intro x hx
            have hxid : x.application_id ∈ rest.map ScoredRow.application_id :=
              List.mem_map_of_mem ScoredRow.application_id hx
            intro hbeq
            have : x.application_id = id := eq_of_beq hbeq
            rw [this, ← hid] at hxid
            exact hr hxid
          simp [persist, h, rowsForId, hnone]
      | false =>
          have := ih hrest
          simp only [persist, h, Bool.false_eq_true, if_false, rowsForId,
            List.filter_cons, h]
          simpa [rowsForId] using this

/-- C9: persistence is an upsert keyed by application_id, the primary key
of scored_loan_applications: running persist twice with the same
ApplicationId, features and score leaves the table as after one persist,
with exactly one row for that ApplicationId. -/
theorem persist_replay_is_idempotent {F S : Type}
    (db : List (ScoredRow F S)) (id : String) (f : F) (s : S)
    (hpk : pkUnique db) :
    persist (persist db id f s) id f s = persist db id f s ∧
    rowsForId (persist (persist db id f s) id f s) id = 1 := by
  refine ⟨persist_twice_eq db id f s, ?_⟩
  rw [persist_twice_eq db id f s]
  exact rowsForId_persist db id f s hpk

/-- C9, witness on a two-row table replaying the row keyed A1. -/
theorem persist_replay_is_idempotent_witness :
    pkUnique [ScoredRow.mk "A1" 1 2, ScoredRow.mk "B2" 3 4] ∧
    (persist (persist [ScoredRow.mk "A1" 1 2, ScoredRow.mk "B2" 3 4]
        "A1" 5 6) "A1" 5 6 =
      persist [ScoredRow.mk "A1" 1 2, ScoredRow.mk "B2" 3 4] "A1" 5 6 ∧
    rowsForId (persist (persist [ScoredRow.mk "A1" 1 2, ScoredRow.mk "B2" 3 4]
        "A1" 5 6) "A1" 5 6) "A1" = 1) :=
  ⟨by unfold pkUnique; decide,
    persist_replay_is_idempotent [ScoredRow.mk "A1" 1 2, ScoredRow.mk "B2" 3 4]
      "A1" 5 6 (by unfold pkUnique; decide)⟩

/-- Each execution produces at most one durable record: one
scored_loan_applications row on full success, or at most one dead-letter
record on terminal failure, never both. -/
theorem records_per_execution (o : StageOracles) :
    persistedRecords o + dlqRecords o ≤ 1 := by
  have htr := runTrace_eq o
  simp only [persistedRecords, dlqRecords, dlqAttempts]
  cases hc : cleanResult o with
  | some e =>
      rw [hc] at htr
      rw [htr]
      cases hd : o.dlqSendFails <;> simp [hc, hd]
  | none =>
      cases hs : scoreResult o with
      | some e =>
          rw [hc, hs] at htr
          rw [htr]
          cases hd : o.dlqSendFails <;> simp [hc, hs, hd]
      | none =>
          cases hp : persistResult o with
          | some e =>
              rw [hc, hs, hp] at htr
              rw [htr]
              cases hd : o.dlqSendFails <;> simp [hc, hs, hp, hd]
          | none =>
              rw [hc, hs, hp] at htr
              rw [htr]
              cases hd : o.dlqSendFails <;> simp [hc, hs, hp, hd]

/-- Every delivery leaves the ledger entry present. -/
theorem deliver_entry_ne (st : DispatchState) :
    (dispatchStep st DispatchEvent.deliver).entry ≠ none := by
  cases hentry : st.entry with
  | none => simp [dispatchStep, dispatchDelivery, beginOrReject, hentry]
  | some le =>
      cases le <;>
        simp [dispatchStep, dispatchDelivery, beginOrReject, hentry]

/-- No event removes a present ledger entry within the TTL window. -/
theorem dispatchStep_entry_ne (st : DispatchState) (ev : DispatchEvent)
    (h : st.entry ≠ none) : (dispatchStep st ev).entry ≠ none := by
  cases ev with
  | deliver => exact deliver_entry_ne st
  | workflowSucceeded =>
      cases hentry : st.entry with
      | none => exact absurd hentry h
      | some le =>
          cases le <;> simp [dispatchStep, hentry]

/-- One event preserves the per-key Dispatcher invariant. -/
theorem dispatchStep_inv (st : DispatchState) (ev : DispatchEvent)
    (h : dispatchInv st) : dispatchInv (dispatchStep st ev) := by
  rcases h with ⟨he, hm, hw⟩ | ⟨he, hm, hw⟩
  · cases ev with
    | deliver =>
        right
        simp [dispatchStep, dispatchDelivery, beginOrReject, he, hm, hw]
    | workflowSucceeded =>
        left
        simp [dispatchStep, he, hm, hw]
  · cases ev with
    | deliver =>
        right
        cases hentry : st.entry with
        | none => exact absurd hentry he
        | some le =>
            cases le <;>
              simp [dispatchStep, dispatchDelivery, beginOrReject, hentry,
                hm, hw]
    | workflowSucceeded =>
        right
        cases hentry : st.entry with
        | none => exact absurd hentry he
        | some le =>
            cases le <;> simp [dispatchStep, hentry, hm, hw]

/-- Folding the events preserves the invariant, and the entry is present at
the end whenever it was present at the start or some delivery occurred. -/
theorem dispatchFold_inv :
    ∀ (events : List DispatchEvent) (st : DispatchState),
      dispatchInv st →
      dispatchInv (events.foldl dispatchStep st) ∧
        ((st.entry ≠ none ∨ DispatchEvent.deliver ∈ events) →
          (events.foldl dispatchStep st).entry ≠ none) := by
  intro events
  induction events with
  | nil =>
      intro st h
      refine ⟨h, ?_⟩
      rintro (hne | hmem)
      · exact hne
      · exact absurd hmem (List.not_mem_nil _)
  | cons ev evs ih =>
      intro st h
      have h2 := dispatchStep_inv st ev h
      obtain ⟨hinv, hcond⟩ := ih (dispatchStep st ev) h2
      refine ⟨hinv, ?_⟩
      rintro (hne | hmem)
      · exact hcond (Or.inl (dispatchStep_entry_ne st ev hne))
      · rcases List.mem_cons.mp hmem with heq | hmem2
        · subst heq
          exact hcond (Or.inl (deliver_entry_ne st))
        · exact hcond (Or.inr hmem2)

/-- C2: for any sequence of events on one natural key inside the Ledger TTL
window containing at least one delivery, exactly one ApplicationId is
minted, exactly one WorkflowExecution is started, and each execution yields
at most one persisted record or dead-letter record, so at most one record
is produced for the key. -/
theorem one_workflow_per_natural_key (events : List DispatchEvent)
    (h : DispatchEvent.deliver ∈ events) :
    (dispatchRun events).mintedIds.length = 1 ∧
    (dispatchRun events).startedWorkflows.length = 1 ∧
    (∀ o : StageOracles, persistedRecords o + dlqRecords o ≤ 1) := by
  have hinit : dispatchInv initialDispatch := by
    left
    exact ⟨rfl, rfl, rfl⟩
  obtain ⟨hinv, hcond⟩ := dispatchFold_inv events initialDispatch hinit
  have hne : (dispatchRun events).entry ≠ none := hcond (Or.inr h)
  rcases hinv with ⟨he, _, _⟩ | ⟨_, hm, hw⟩
  · exact absurd he hne
  · exact ⟨hm, hw, records_per_execution⟩

/-- C2, witness at three deliveries around one workflow completion. -/
theorem one_workflow_per_natural_key_witness :
    DispatchEvent.deliver ∈
      [DispatchEvent.deliver, DispatchEvent.deliver,
        DispatchEvent.workflowSucceeded, DispatchEvent.deliver] ∧
    ((dispatchRun [DispatchEvent.deliver, DispatchEvent.deliver,
        DispatchEvent.workflowSucceeded,
        DispatchEvent.deliver]).mintedIds.length = 1 ∧
      (dispatchRun [DispatchEvent.deliver, DispatchEvent.deliver,
        DispatchEvent.workflowSucceeded,
        DispatchEvent.deliver]).startedWorkflows.length = 1 ∧
      (∀ o : StageOracles, persistedRecords o + dlqRecords o ≤ 1)) :=
  ⟨by decide,
    one_workflow_per_natural_key
      [DispatchEvent.deliver, DispatchEvent.deliver,
        DispatchEvent.workflowSucceeded, DispatchEvent.deliver]
      (by decide)⟩

end LoanRiskEvaluator
